import Mathlib

/-!
Verification development for the news-portal pipeline post-processing layer
(`src/news_portal/crew.py`): the output normalizer `ensure_json`, the merge
and final-selection logic of `run_pipeline`, and the fallback assembler
`_minimal_final_fallback`.  Python values flowing through this layer are
JSON-derived values (the results of `json.loads` plus a few literal records),
modelled by `PyVal`.  Python dictionaries are modelled as insertion-ordered
association lists with string keys; operations that can raise a Python
exception (attribute errors on non-dict values, `dict(...)` conversion
failures) return `Except String`.
-/

set_option maxHeartbeats 1000000

namespace NewsPortal

/-- JSON-derived Python value.  Numbers are modelled as integers: no claim
exercises float literals, so fractional and exponent number forms are left
outside the model (the parser rejects them). -/
inductive PyVal where
  | null : PyVal
  | bool : Bool → PyVal
  | int : Int → PyVal
  | str : String → PyVal
  | list : List PyVal → PyVal
  | dict : List (String × PyVal) → PyVal

/-- First value bound to key `k`, mirroring Python dict lookup (our dicts are
built with `dictSet`, which keeps keys unique). -/
def dlookup (k : String) : List (String × PyVal) → Option PyVal
  | [] => none
  | (k2, v) :: rest => if k2 = k then some v else dlookup k rest

/-- Model of `d[k] = v` on a Python dict: replace in place if the key exists
(keeping insertion order), append otherwise. -/
def dictSet (l : List (String × PyVal)) (k : String) (v : PyVal) :
    List (String × PyVal) :=
  match l with
  | [] => [(k, v)]
  | (k2, v2) :: rest =>
    if k2 = k then (k, v) :: rest else (k2, v2) :: dictSet rest k v

/-- Model of `d.get(k)` on a value that may not be a dict: Python raises
`AttributeError` on non-dicts, and returns `None` for a missing key. -/
def pyGet (v : PyVal) (k : String) : Except String PyVal :=
  match v with
  | .dict d => .ok ((dlookup k d).getD .null)
  | _ => .error "AttributeError"

/-- Python truthiness for JSON-derived values. -/
def truthy : PyVal → Bool
  | .null => false
  | .bool b => b
  | .int n => decide (n ≠ 0)
  | .str s => decide (s ≠ "")
  | .list xs => !xs.isEmpty
  | .dict d => !d.isEmpty

/-- The value is a Python dict. -/
def isDictV : PyVal → Bool
  | .dict _ => true
  | _ => false

/-- The value is a Python list. -/
def isListV : PyVal → Bool
  | .list _ => true
  | _ => false

/-! ### A model of `json.loads`

Recursive-descent JSON reader over the code-point list of the input, with a
fuel bound for termination.  Faithful to Python `json.loads` on the value
space of the model: `null`, booleans, integer numbers (leading-zero and lone
minus forms rejected, as Python does), strings with the standard escapes,
arrays and objects, with JSON whitespace and a full-consumption check at top
level.  Outside the model (the reader fails where Python would succeed):
fractional and exponent number literals, `NaN` and `Infinity`, and surrogate
`\u` escape pairs; no claim in this development touches those forms. -/

def lbrace : Char := Char.ofNat 123

def rbrace : Char := Char.ofNat 125

def isJsonWs (c : Char) : Bool :=
  c = ' ' || c = '\t' || c = '\n' || c = '\r'

/-- Drop leading JSON whitespace. -/
def skipWs : List Char → List Char
  | [] => []
  | c :: cs => if isJsonWs c then skipWs cs else c :: cs

/-- Value of a hexadecimal digit. -/
def hexVal (c : Char) : Option Nat :=
  if '0' ≤ c ∧ c ≤ '9' then some (c.toNat - 48)
  else if 'a' ≤ c ∧ c ≤ 'f' then some (c.toNat - 87)
  else if 'A' ≤ c ∧ c ≤ 'F' then some (c.toNat - 55)
  else none

/-- Read the remainder of a JSON string literal (the opening quote already
consumed), accumulating characters in reverse. -/
def parseStringRest (acc : List Char) : List Char → Option (String × List Char)
  | [] => none
  | c :: cs =>
    if c = '"' then some (String.mk acc.reverse, cs)
    else if c = '\\' then
      match cs with
      | [] => none
      | e :: cs2 =>
        if e = '"' then parseStringRest ('"' :: acc) cs2
        else if e = '\\' then parseStringRest ('\\' :: acc) cs2
        else if e = '/' then parseStringRest ('/' :: acc) cs2
        else if e = 'b' then parseStringRest (Char.ofNat 8 :: acc) cs2
        else if e = 'f' then parseStringRest (Char.ofNat 12 :: acc) cs2
        else if e = 'n' then parseStringRest ('\n' :: acc) cs2
        else if e = 'r' then parseStringRest ('\r' :: acc) cs2
        else if e = 't' then parseStringRest ('\t' :: acc) cs2
        else if e = 'u' then
          match cs2 with
          | h1 :: h2 :: h3 :: h4 :: cs3 =>
            match hexVal h1, hexVal h2, hexVal h3, hexVal h4 with
            | some a, some b, some c2, some d =>
              let code := ((a * 16 + b) * 16 + c2) * 16 + d
              if 0xD800 ≤ code ∧ code ≤ 0xDFFF then none
              else parseStringRest (Char.ofNat code :: acc) cs3
            | _, _, _, _ => none
          | _ => none
        else none
    else if c.toNat < 32 then none
    else parseStringRest (c :: acc) cs

/-- Digits to a natural number. -/
def digitsToNat (ds : List Char) : Nat :=
  ds.foldl (fun n c => n * 10 + (c.toNat - 48)) 0

/-- Read a JSON integer literal (Python also accepts floats, outside this
model; continuations `.`, `e`, `E` therefore make the reader fail). -/
def parseNumber (cs : List Char) : Option (PyVal × List Char) :=
  let p := match cs with
    | '-' :: r => (true, r)
    | _ => (false, cs)
  let neg := p.1
  let q := p.2.span (fun c => c.isDigit)
  match q.1 with
  | [] => none
  | d :: ds2 =>
    if d = '0' ∧ ds2 ≠ [] then none
    else
      let n : Int := Int.ofNat (digitsToNat q.1)
      let v : PyVal := .int (if neg then -n else n)
      match q.2 with
      | c :: _ => if c = '.' || c = 'e' || c = 'E' then none else some (v, q.2)
      | [] => some (v, q.2)

mutual

/-- Read one JSON value. -/
def parseVal : Nat → List Char → Option (PyVal × List Char)
  | 0, _ => none
  | fuel + 1, cs =>
    match skipWs cs with
    | [] => none
    | c :: rest =>
      if c = 'n' then
        match rest with
        | 'u' :: 'l' :: 'l' :: r => some (.null, r)
        | _ => none
      else if c = 't' then
        match rest with
        | 'r' :: 'u' :: 'e' :: r => some (.bool true, r)
        | _ => none
      else if c = 'f' then
        match rest with
        | 'a' :: 'l' :: 's' :: 'e' :: r => some (.bool false, r)
        | _ => none
      else if c = '"' then
        match parseStringRest [] rest with
        | some (s, r) => some (.str s, r)
        | none => none
      else if c = '[' then
        match skipWs rest with
        | ']' :: r => some (.list [], r)
        | cs2 =>
          match parseItems fuel cs2 with
          | some (xs, r) => some (.list xs, r)
          | none => none
      else if c = lbrace then
        match skipWs rest with
        | [] => none
        | x :: r =>
          if x = rbrace then some (.dict [], r)
          else
            match parseMembers fuel (x :: r) with
            | some (ms, r2) =>
              some (.dict (ms.foldl (fun d kv => dictSet d kv.1 kv.2) []), r2)
            | none => none
      else parseNumber (c :: rest)

/-- Read the items of a JSON array up to and including the closing bracket. -/
def parseItems : Nat → List Char → Option (List PyVal × List Char)
  | 0, _ => none
  | fuel + 1, cs =>
    match parseVal fuel cs with
    | none => none
    | some (v, r) =>
      match skipWs r with
      | ',' :: r2 =>
        match parseItems fuel r2 with
        | some (xs, r3) => some (v :: xs, r3)
        | none => none
      | ']' :: r2 => some ([v], r2)
      | _ => none

/-- Read the members of a JSON object up to and including the closing brace. -/
def parseMembers : Nat → List Char → Option (List (String × PyVal) × List Char)
  | 0, _ => none
  | fuel + 1, cs =>
    match skipWs cs with
    | '"' :: r =>
      match parseStringRest [] r with
      | none => none
      | some (k, r2) =>
        match skipWs r2 with
        | ':' :: r3 =>
          match parseVal fuel r3 with
          | none => none
          | some (v, r4) =>
            match skipWs r4 with
            | [] => none
            | y :: r5 =>
              if y = ',' then
                match parseMembers fuel r5 with
                | some (ms, r6) => some ((k, v) :: ms, r6)
                | none => none
              else if y = rbrace then some ([(k, v)], r5)
              else none
        | _ => none
    | _ => none

end

/-- Model of `json.loads`: read one value, then require only whitespace to
remain (Python rejects trailing garbage).  `none` stands for a raised
`JSONDecodeError`. -/
def jsonParse (s : String) : Option PyVal :=
  match parseVal (2 * s.length + 8) s.data with
  | some (v, rest) => if skipWs rest = [] then some v else none
  | none => none

end NewsPortal

namespace NewsPortal

/-! ### The output normalizer `ensure_json` (crew.py lines 44-57) -/

/-- Model of `s.find(c)` restricted to the single-character needle used in
the source: index of the first occurrence, `none` for Python result `-1`. -/
def strFind (s : String) (c : Char) : Option Nat :=
  s.data.findIdx? (fun x => x = c)

/-- Model of `s.rfind(c)`: index of the last occurrence. -/
def strRfind (s : String) (c : Char) : Option Nat :=
  match s.data.reverse.findIdx? (fun x => x = c) with
  | some j => some (s.data.length - 1 - j)
  | none => none

/-- The guard of crew.py line 49: the position of the first brace and of the
last closing brace, provided both exist and the first strictly precedes the
last (`start >= 0 and end >= 0 and end > start`). -/
def spanOf (s : String) : Option (Nat × Nat) :=
  match strFind s lbrace, strRfind s rbrace with
  | some st, some en => if st < en then some (st, en) else none
  | _, _ => none

/-- Model of the slice `s[start:end+1]`. -/
def sliceSpan (s : String) (st en : Nat) : String :=
  String.mk ((s.data.drop st).take (en + 1 - st))

/-- The fallback record of crew.py line 57. -/
def errorRecord (s : String) : PyVal :=
  .dict [("error", .str "non_json_output"), ("raw", .str s)]

/-- Model of `ensure_json` (crew.py lines 44-57).  The first attempt parses
the brace-delimited slice when the guard of line 49 holds and the whole
string otherwise; any failure is caught and the whole string is parsed once
more (line 55); if that also fails the error record is returned. -/
def ensure_json (s : String) : PyVal :=
  let firstAttempt :=
    match spanOf s with
    | some (st, en) => jsonParse (sliceSpan s st en)
    | none => jsonParse s
  match firstAttempt with
  | some v => v
  | none =>
    match jsonParse s with
    | some v => v
    | none => errorRecord s

/-! ### The pipeline runner `run_pipeline` (crew.py lines 202-234) -/

def TOPIC : String := "Cancer Health Care"

def SUBTOPICS : List String :=
  ["Cancer Research & Prevention",
   "Early Detection and Diagnosis",
   "Cancer Drug Discovery and Development",
   "Cancer Treatment Methods",
   "Precision Oncology"]

/-- Model of `merged.get(k, dflt)`. -/
def dictGetD (m : List (String × PyVal)) (k : String) (dflt : PyVal) : PyVal :=
  (dlookup k m).getD dflt

/-- Per-artifact normalization of crew.py line 216: a falsy (empty) raw text
becomes the record with key `empty`, anything else goes through
`ensure_json`. -/
def normalize_artifact (raw : String) : PyVal :=
  if raw ≠ "" then ensure_json raw else .dict [("empty", .bool true)]

/-- The merge loop of crew.py lines 214-217: `merged[step_(idx+1)] = data`
for each artifact in order, `idx` counting from 0. -/
def merge_steps : Nat → List String → List (String × PyVal) →
    List (String × PyVal)
  | _, [], m => m
  | idx, a :: rest, m =>
    merge_steps (idx + 1) rest
      (dictSet m ("step_" ++ toString (idx + 1)) (normalize_artifact a))

/-- The merged mapping before the `final` key is added: crew.py lines
211-217. -/
def build_merged (artifacts : List String) : List (String × PyVal) :=
  merge_steps 0 artifacts [("topic", .str TOPIC)]

/-! ### The fallback assembler `_minimal_final_fallback` (lines 239-284) -/

def pick_steps : List String :=
  ["step_1", "step_2", "step_3", "step_4", "step_5"]

def edit_steps : List String :=
  ["step_6", "step_7", "step_8", "step_9", "step_10"]

/-- One key-value pair for the Python `dict(...)` constructor, taken from a
JSON-derived element: a two-element list whose head is a string, a two-item
dict (iterating it yields its two keys), or a two-character string.  Python
additionally accepts pairs with non-string hashable keys; those fall outside
this model (our dicts are string-keyed, as every JSON-parsed dict is) and no
claim exercises them. -/
def pairOfVal : PyVal → Except String (String × PyVal)
  | .list [.str k, v] => .ok (k, v)
  | .dict [(k1, _), (k2, _)] => .ok (k1, .str k2)
  | .str s =>
    match s.data with
    | [a, b] => .ok (String.mk [a], .str (String.mk [b]))
    | _ => .error "ValueError"
  | _ => .error "ValueError"

def pairsOfList : List PyVal → Except String (List (String × PyVal))
  | [] => .ok []
  | x :: xs =>
    match pairOfVal x with
    | .error e => .error e
    | .ok p =>
      match pairsOfList xs with
      | .error e => .error e
      | .ok ps => .ok (p :: ps)

/-- Model of the Python constructor `dict(a)` on a JSON-derived value: a
fresh copy for a dict, successive key-value assignment for a list of pairs,
the empty dict for the empty string; everything else raises. -/
def pyDictCtor : PyVal → Except String (List (String × PyVal))
  | .dict d => .ok d
  | .list xs =>
    match pairsOfList xs with
    | .error e => .error e
    | .ok ps => .ok (ps.foldl (fun d kv => dictSet d kv.1 kv.2) [])
  | .str s => if s.data.isEmpty then .ok [] else .error "ValueError"
  | _ => .error "TypeError"

/-- The comprehension `[dict(a) for a in pick["articles"]]` of line 254. -/
def copyArticles : List PyVal → Except String (List (List (String × PyVal)))
  | [] => .ok []
  | x :: xs =>
    match pyDictCtor x with
    | .error e => .error e
    | .ok d =>
      match copyArticles xs with
      | .error e => .error e
      | .ok ds => .ok (d :: ds)

/-- The loop of lines 258-259: the j-th article gets the j-th summary as its
`summary` value, `None` once the summaries run out. -/
def attachSummaries : List (List (String × PyVal)) → List PyVal →
    List (List (String × PyVal))
  | [], _ => []
  | a :: arts, [] => dictSet a "summary" .null :: attachSummaries arts []
  | a :: arts, s :: ss => dictSet a "summary" s :: attachSummaries arts ss

/-- The body of the per-subtopic loop of `_minimal_final_fallback` (lines
247-265), producing the `per_subtopic[sub]` entry for index `i`. -/
def subtopic_entry (merged : List (String × PyVal)) (i : Nat) (sub : String) :
    Except String (String × PyVal) :=
  let pick := if i < pick_steps.length
    then dictGetD merged (pick_steps.getD i "") (.dict []) else .dict []
  let edit := if i < edit_steps.length
    then dictGetD merged (edit_steps.getD i "") (.dict []) else .dict []
  match pyGet pick "articles" with
  | .error e => .error e
  | .ok pickArticles =>
    match (match pickArticles with
           | .list xs => copyArticles xs
           | _ => .ok []) with
    | .error e => .error e
    | .ok arts =>
      match pyGet edit "summaries" with
      | .error e => .error e
      | .ok summariesV =>
        let summaries := match summariesV with
          | .list ss => ss
          | _ => []
        let arts2 := attachSummaries arts summaries
        match pyGet edit "editorial" with
        | .error e => .error e
        | .ok editorial =>
          .ok (sub, .dict [
            ("articles", .list ((arts2.take 5).map .dict)),
            ("editorial", editorial),
            ("best_article", match arts2 with
              | a :: _ => .dict a
              | [] => .null)])

/-- The per-subtopic loop of lines 247-265.  The subtopic names are pairwise
distinct, so consing the entries in order builds the same insertion-ordered
dict as the successive `per_subtopic[sub] = ...` assignments. -/
def fallback_entries_from (merged : List (String × PyVal)) :
    Nat → List String → Except String (List (String × PyVal))
  | _, [] => .ok []
  | i, sub :: subs =>
    match subtopic_entry merged i sub with
    | .error e => .error e
    | .ok entry =>
      match fallback_entries_from merged (i + 1) subs with
      | .error e => .error e
      | .ok rest => .ok (entry :: rest)

def fallback_entries (merged : List (String × PyVal)) :
    Except String (List (String × PyVal)) :=
  fallback_entries_from merged 0 SUBTOPICS

/-- The `home.best_articles` loop of lines 268-274: each subtopic whose entry
has a truthy `best_article` contributes a copy of it tagged with the
subtopic name. -/
def best_from (per : List (String × PyVal)) :
    List String → Except String (List PyVal)
  | [] => .ok []
  | sub :: subs =>
    match pyGet (dictGetD per sub (.dict [])) "best_article" with
    | .error e => .error e
    | .ok ba =>
      if truthy ba then
        match pyDictCtor ba with
        | .error e => .error e
        | .ok x =>
          match best_from per subs with
          | .error e => .error e
          | .ok rest => .ok (.dict (dictSet x "subtopic" (.str sub)) :: rest)
      else best_from per subs

/-- Model of `_minimal_final_fallback` (crew.py lines 239-284). -/
def minimal_final_fallback (merged : List (String × PyVal)) :
    Except String PyVal :=
  match fallback_entries merged with
  | .error e => .error e
  | .ok per =>
    match best_from per SUBTOPICS with
    | .error e => .error e
    | .ok best =>
      .ok (.dict [
        ("topic", .str TOPIC),
        ("subtopics", .list (SUBTOPICS.map .str)),
        ("per_subtopic", .dict per),
        ("home", .dict [
          ("best_articles", .list (best.take 5)),
          ("main_editorial", .null)])])

/-- The selection of `merged["final"]` (crew.py lines 221-225): the Python
`or`-chain takes the first truthy operand, and the fallback call is reached
only when both `get` results are falsy. -/
def choose_final (merged : List (String × PyVal)) : Except String PyVal :=
  match pyGet (dictGetD merged "step_12" (.dict [])) "final" with
  | .error e => .error e
  | .ok f12 =>
    if truthy f12 then .ok f12
    else
      match pyGet (dictGetD merged "step_11" (.dict [])) "final" with
      | .error e => .error e
      | .ok f11 =>
        if truthy f11 then .ok f11
        else minimal_final_fallback merged

/-- Model of `run_pipeline` (crew.py lines 202-234) from the point where the
orchestration call has returned.  `artifacts` is the list of raw texts
extracted from `result.tasks_output` (line 215); `topic` is the ignored
argument of the Python function; `write_error` is the outcome of the file
write of lines 229-232, `some e` standing for a raised exception with
message `e` (the file contents themselves are not modelled).  An
`Except.error` result models a Python exception escaping the call. -/
def run_pipeline (topic : Option String) (artifacts : List String)
    (write_error : Option String) : Except String (List (String × PyVal)) :=
  let merged := build_merged artifacts
  match choose_final merged with
  | .error e => .error e
  | .ok fin =>
    let merged2 := dictSet merged "final" fin
    match write_error with
    | some e => .ok (dictSet merged2 "file_write_error" (.str e))
    | none => .ok merged2

end NewsPortal

namespace NewsPortal

/-! ### Predicates used in the claim statements -/

/-- Entries of a dict value, the empty dict for anything else. -/
def asDict : PyVal → List (String × PyVal)
  | .dict d => d
  | _ => []

/-- When the record is a dict whose `articles` value is a list, every element
of that list is itself a dict (so `dict(a)` copies cannot raise). -/
def articleElemsOk : PyVal → Bool
  | .dict d =>
    match dlookup "articles" d with
    | some (.list xs) => xs.all isDictV
    | _ => true
  | _ => true

/-- A step record on which the merge and fallback paths cannot raise: a dict
whose articles list, if any, holds only dicts. -/
def recordSafe (v : PyVal) : Bool := isDictV v && articleElemsOk v

/-- Every record of `merged` found at one of the given step keys is safe. -/
def stepsSafe (keys : List String) (merged : List (String × PyVal)) : Bool :=
  keys.all fun k =>
    match dlookup k merged with
    | some v => recordSafe v
    | none => true

/-- A per-subtopic entry of the fallback view: a dict carrying the three
expected fields. -/
def isEntryB : PyVal → Bool
  | .dict d =>
    (dlookup "articles" d).isSome && (dlookup "editorial" d).isSome &&
      (dlookup "best_article" d).isSome
  | _ => false

/-- The list of values is exactly the given strings. -/
def strListEq : List PyVal → List String → Bool
  | [], [] => true
  | .str a :: xs, b :: ys => decide (a = b) && strListEq xs ys
  | _, _ => false

/-- A complete FinalView in the sense of the specification data model: the
fixed topic, the subtopic list, one entry per subtopic under
`per_subtopic`, and a `home` record with `best_articles` and
`main_editorial`. -/
def isFinalViewB : PyVal → Bool
  | .dict d =>
    (match dlookup "topic" d with
     | some (.str t) => decide (t = TOPIC)
     | _ => false) &&
    (match dlookup "subtopics" d with
     | some (.list xs) => strListEq xs SUBTOPICS
     | _ => false) &&
    (match dlookup "per_subtopic" d with
     | some (.dict per) =>
       SUBTOPICS.all fun sub =>
         match dlookup sub per with
         | some e => isEntryB e
         | none => false
     | _ => false) &&
    (match dlookup "home" d with
     | some (.dict h) =>
       (dlookup "best_articles" h).isSome && (dlookup "main_editorial" h).isSome
     | _ => false)
  | _ => false

/-- The designated pick record for subtopic `i` is missing, or is a dict
without an `articles` list field (the malformations the amended claim C3
covers; a non-dict record instead raises). -/
def pickMalformed (merged : List (String × PyVal)) (i : Nat) : Bool :=
  match dlookup (pick_steps.getD i "") merged with
  | none => true
  | some (.dict d) =>
    match dlookup "articles" d with
    | some (.list _) => false
    | _ => true
  | some _ => false

/-- The designated editor record for subtopic `i` is missing, or is a dict
without a `summaries` list field. -/
def editMalformed (merged : List (String × PyVal)) (i : Nat) : Bool :=
  match dlookup (edit_steps.getD i "") merged with
  | none => true
  | some (.dict d) =>
    match dlookup "summaries" d with
    | some (.list _) => false
    | _ => true
  | some _ => false

/-- Every article of the entry carries an explicit null summary. -/
def summariesAllNull : PyVal → Bool
  | .dict d =>
    match dlookup "articles" d with
    | some (.list xs) =>
      xs.all fun a =>
        match a with
        | .dict ad =>
          match dlookup "summary" ad with
          | some .null => true
          | _ => false
        | _ => false
    | _ => false
  | _ => false

/-- The `final` field nested inside the step record at key `k`, null when
the record is absent, is not a dict, or lacks the field. -/
def nestedFinal (merged : List (String × PyVal)) (k : String) : PyVal :=
  match dlookup k merged with
  | some (.dict d) => (dlookup "final" d).getD .null
  | _ => .null

/-- Final-selection rule in the words of the amended claim C8: prefer the
`final` field nested in the `step_12` record when that field is truthy, then
the one nested in `step_11`, then the fallback view. -/
def choose_final_spec (merged : List (String × PyVal)) : Except String PyVal :=
  if truthy (nestedFinal merged "step_12") then .ok (nestedFinal merged "step_12")
  else if truthy (nestedFinal merged "step_11") then .ok (nestedFinal merged "step_11")
  else minimal_final_fallback merged

end NewsPortal
namespace NewsPortal

/-! ### Helper lemmas -/

theorem dlookup_dictSet (m : List (String × PyVal)) (k k2 : String) (v : PyVal) :
    dlookup k (dictSet m k2 v) = if k2 = k then some v else dlookup k m := by
  induction m with
  | nil => simp [dictSet, dlookup]
  | cons p rest ih =>
    obtain ⟨k3, v3⟩ := p
    by_cases h3 : k3 = k2
    · subst h3
      simp only [dictSet, if_pos rfl, dlookup]
      by_cases h : k3 = k
      · simp [h]
      · simp [h]
    · simp only [dictSet, if_neg h3, dlookup]
      by_cases h : k3 = k
      · subst h
        have : ¬(k2 = k3) := fun he => h3 he.symm
        simp [this]
      · simp [h, ih]

theorem dlookup_mem {k : String} {v : PyVal} :
    ∀ {l : List (String × PyVal)}, dlookup k l = some v → (k, v) ∈ l := by
  intro l
  induction l with
  | nil => intro h; simp [dlookup] at h
  | cons p rest ih =>
    obtain ⟨k2, v2⟩ := p
    intro h
    simp only [dlookup] at h
    by_cases h2 : k2 = k
    · subst h2
      rw [if_pos rfl] at h
      injection h with h3
      subst h3
      exact List.mem_cons_self _ _
    · rw [if_neg h2] at h
      exact List.mem_cons_of_mem _ (ih h)

theorem dlookup_isSome_of_key_mem {k : String} :
    ∀ {l : List (String × PyVal)}, k ∈ l.map Prod.fst → (dlookup k l).isSome = true := by
  intro l
  induction l with
  | nil => intro h; simp at h
  | cons p rest ih =>
    obtain ⟨k2, v2⟩ := p
    intro h
    simp only [dlookup]
    by_cases h2 : k2 = k
    · rw [if_pos h2]; rfl
    · rw [if_neg h2]
      apply ih
      simp only [List.map, List.mem_cons] at h
      rcases h with h | h
      · exact absurd h.symm h2
      · exact h

theorem string_append_data (a b : String) : (a ++ b).data = a.data ++ b.data := rfl

theorem step_key_ne_topic (t : String) : "step_" ++ t ≠ "topic" := by
  intro he
  have h2 : 's' :: ('t' :: 'e' :: 'p' :: '_' :: t.data) =
      't' :: 'o' :: 'p' :: 'i' :: 'c' :: [] := congrArg String.data he
  injection h2 with h3 _
  exact absurd h3 (by decide)

theorem step_key_ne_final (t : String) : "step_" ++ t ≠ "final" := by
  intro he
  have h2 : 's' :: ('t' :: 'e' :: 'p' :: '_' :: t.data) =
      'f' :: 'i' :: 'n' :: 'a' :: 'l' :: [] := congrArg String.data he
  injection h2 with h3 _
  exact absurd h3 (by decide)

theorem step_key_ne_fwe (t : String) : "step_" ++ t ≠ "file_write_error" := by
  intro he
  have h2 : 's' :: ('t' :: 'e' :: 'p' :: '_' :: t.data) =
      'f' :: 'i' :: 'l' :: 'e' :: '_' :: 'w' :: 'r' :: 'i' :: 't' :: 'e' :: '_' ::
        'e' :: 'r' :: 'r' :: 'o' :: 'r' :: [] := congrArg String.data he
  injection h2 with h3 _
  exact absurd h3 (by decide)

theorem merge_steps_lookup (K : String) (hK : ∀ t : String, "step_" ++ t ≠ K) :
    ∀ (arts : List String) (i : Nat) (m : List (String × PyVal)),
      dlookup K (merge_steps i arts m) = dlookup K m := by
  intro arts
  induction arts with
  | nil => intro i m; rfl
  | cons a rest ih =>
    intro i m
    simp only [merge_steps]
    rw [ih, dlookup_dictSet, if_neg (hK (toString (i + 1)))]

theorem merge_steps_lookup_val (K : String) :
    ∀ (arts : List String) (i : Nat) (m : List (String × PyVal)) (v : PyVal),
      dlookup K (merge_steps i arts m) = some v →
      dlookup K m = some v ∨ ∃ a ∈ arts, v = normalize_artifact a := by
  intro arts
  induction arts with
  | nil => intro i m v h; exact Or.inl h
  | cons a rest ih =>
    intro i m v h
    simp only [merge_steps] at h
    rcases ih (i + 1) _ v h with h2 | h2
    · rw [dlookup_dictSet] at h2
      by_cases hk : "step_" ++ toString (i + 1) = K
      · rw [if_pos hk] at h2
        injection h2 with h3
        exact Or.inr ⟨a, List.mem_cons_self _ _, h3.symm⟩
      · rw [if_neg hk] at h2
        exact Or.inl h2
    · obtain ⟨a2, ha2, hv⟩ := h2
      exact Or.inr ⟨a2, List.mem_cons_of_mem _ ha2, hv⟩

end NewsPortal
namespace NewsPortal

theorem isDictV_exists {v : PyVal} (h : isDictV v = true) : ∃ d, v = .dict d := by
  cases v with
  | dict d => exact ⟨d, rfl⟩
  | null => simp [isDictV] at h
  | bool b => simp [isDictV] at h
  | int n => simp [isDictV] at h
  | str s => simp [isDictV] at h
  | list xs => simp [isDictV] at h

theorem copyArticles_all_dicts :
    ∀ {xs : List PyVal}, xs.all isDictV = true →
      copyArticles xs = .ok (xs.map asDict) := by
  intro xs
  induction xs with
  | nil => intro _; rfl
  | cons x rest ih =>
    intro h
    rw [List.all_cons, Bool.and_eq_true] at h
    obtain ⟨d, hd⟩ := isDictV_exists h.1
    subst hd
    simp only [copyArticles, pyDictCtor, ih h.2, List.map, asDict]

theorem attachSummaries_nil (arts : List (List (String × PyVal))) :
    attachSummaries arts [] =
      arts.map (fun a => dictSet a "summary" PyVal.null) := by
  induction arts with
  | nil => rfl
  | cons a rest ih => simp only [attachSummaries, ih, List.map]

theorem dlookup_set_self (a : List (String × PyVal)) (k : String) (v : PyVal) :
    dlookup k (dictSet a k v) = some v := by
  rw [dlookup_dictSet, if_pos rfl]

theorem subtopic_entry_shape {merged : List (String × PyVal)} {i : Nat}
    {sub : String} {e : String × PyVal}
    (h : subtopic_entry merged i sub = .ok e) :
    ∃ arts2 ed, e = (sub, .dict [
      ("articles", .list ((arts2.take 5).map PyVal.dict)),
      ("editorial", ed),
      ("best_article", match arts2 with
        | a :: _ => PyVal.dict a
        | [] => PyVal.null)]) := by
  rw [subtopic_entry] at h
  split at h
  · exact Except.noConfusion h
  split at h
  · exact Except.noConfusion h
  split at h
  · exact Except.noConfusion h
  split at h
  all_goals simp only [] at h
  all_goals split at h
  all_goals
    first
    | exact Except.noConfusion h
    | (injection h with h2; exact ⟨_, _, h2.symm⟩)

end NewsPortal
namespace NewsPortal

theorem subtopic_entry_eval (merged : List (String × PyVal)) (i : Nat) (sub : String)
    (hi5 : i < 5) (pd edd : List (String × PyVal))
    (arts : List (List (String × PyVal)))
    (hp : dictGetD merged (pick_steps.getD i "") (.dict []) = .dict pd)
    (he : dictGetD merged (edit_steps.getD i "") (.dict []) = .dict edd)
    (harts : (match (dlookup "articles" pd).getD PyVal.null with
              | PyVal.list xs => copyArticles xs
              | _ => Except.ok []) = Except.ok arts) :
    subtopic_entry merged i sub =
      Except.ok (sub, PyVal.dict [
        ("articles", PyVal.list (((attachSummaries arts
          (match (dlookup "summaries" edd).getD PyVal.null with
           | PyVal.list ss => ss
           | _ => [])).take 5).map PyVal.dict)),
        ("editorial", (dlookup "editorial" edd).getD PyVal.null),
        ("best_article",
          match attachSummaries arts
            (match (dlookup "summaries" edd).getD PyVal.null with
             | PyVal.list ss => ss
             | _ => []) with
          | a :: _ => PyVal.dict a
          | [] => PyVal.null)]) := by
  have h5p : i < pick_steps.length := by simpa [pick_steps] using hi5
  have h5e : i < edit_steps.length := by simpa [edit_steps] using hi5
  rw [subtopic_entry, if_pos h5p, if_pos h5e, hp, he]
  simp only [pyGet]
  rw [harts]

theorem subtopic_entry_ok (merged : List (String × PyVal)) (i : Nat) (sub : String)
    (hi5 : i < 5)
    (hp : recordSafe (dictGetD merged (pick_steps.getD i "") (.dict [])) = true)
    (he : isDictV (dictGetD merged (edit_steps.getD i "") (.dict [])) = true) :
    ∃ e, subtopic_entry merged i sub = .ok e := by
  rw [recordSafe, Bool.and_eq_true] at hp
  obtain ⟨pd, hpd⟩ := isDictV_exists hp.1
  obtain ⟨edd, hedd⟩ := isDictV_exists he
  have hAE := hp.2
  rw [hpd] at hAE
  rcases hL : dlookup "articles" pd with _ | v
  · exact ⟨_, subtopic_entry_eval merged i sub hi5 pd edd [] hpd hedd (by rw [hL]; rfl)⟩
  · cases v with
    | list xs =>
      have hall : xs.all isDictV = true := by
        simp only [articleElemsOk, hL] at hAE
        exact hAE
      exact ⟨_, subtopic_entry_eval merged i sub hi5 pd edd (xs.map asDict) hpd hedd
        (by rw [hL]; simp only [Option.getD]; rw [copyArticles_all_dicts hall])⟩
    | null => exact ⟨_, subtopic_entry_eval merged i sub hi5 pd edd [] hpd hedd (by rw [hL]; rfl)⟩
    | bool b => exact ⟨_, subtopic_entry_eval merged i sub hi5 pd edd [] hpd hedd (by rw [hL]; rfl)⟩
    | int n => exact ⟨_, subtopic_entry_eval merged i sub hi5 pd edd [] hpd hedd (by rw [hL]; rfl)⟩
    | str s => exact ⟨_, subtopic_entry_eval merged i sub hi5 pd edd [] hpd hedd (by rw [hL]; rfl)⟩
    | dict d => exact ⟨_, subtopic_entry_eval merged i sub hi5 pd edd [] hpd hedd (by rw [hL]; rfl)⟩

end NewsPortal
namespace NewsPortal

theorem subtopic_entry_pick_malformed (merged : List (String × PyVal)) (i : Nat)
    (sub : String) (hi5 : i < 5)
    (hm : pickMalformed merged i = true)
    (he : isDictV (dictGetD merged (edit_steps.getD i "") (.dict [])) = true) :
    ∃ edd, dictGetD merged (edit_steps.getD i "") (.dict []) = .dict edd ∧
      subtopic_entry merged i sub = .ok (sub, .dict [
        ("articles", .list []),
        ("editorial", (dlookup "editorial" edd).getD .null),
        ("best_article", .null)]) := by
  obtain ⟨edd, hedd⟩ := isDictV_exists he
  refine ⟨edd, hedd, ?_⟩
  rw [pickMalformed] at hm
  rcases hL : dlookup (pick_steps.getD i "") merged with _ | v
  · rw [hL] at hm
    have hp : dictGetD merged (pick_steps.getD i "") (.dict []) = .dict [] := by
      rw [dictGetD, hL]; rfl
    exact subtopic_entry_eval merged i sub hi5 [] edd [] hp hedd rfl
  · rw [hL] at hm
    cases v with
    | dict d =>
      have hp : dictGetD merged (pick_steps.getD i "") (.dict []) = .dict d := by
        rw [dictGetD, hL]; rfl
      rcases hA : dlookup "articles" d with _ | w
      · exact subtopic_entry_eval merged i sub hi5 d edd [] hp hedd (by rw [hA]; rfl)
      · cases w with
        | list xs => simp [hA] at hm
        | null => exact subtopic_entry_eval merged i sub hi5 d edd [] hp hedd (by rw [hA]; rfl)
        | bool b => exact subtopic_entry_eval merged i sub hi5 d edd [] hp hedd (by rw [hA]; rfl)
        | int n => exact subtopic_entry_eval merged i sub hi5 d edd [] hp hedd (by rw [hA]; rfl)
        | str s => exact subtopic_entry_eval merged i sub hi5 d edd [] hp hedd (by rw [hA]; rfl)
        | dict d2 => exact subtopic_entry_eval merged i sub hi5 d edd [] hp hedd (by rw [hA]; rfl)
    | null => simp at hm
    | bool b => simp at hm
    | int n => simp at hm
    | str s => simp at hm
    | list xs => simp at hm

end NewsPortal
namespace NewsPortal

theorem subtopic_entry_edit_malformed (merged : List (String × PyVal)) (i : Nat)
    (sub : String) (e : String × PyVal) (hi5 : i < 5)
    (hm : editMalformed merged i = true)
    (h : subtopic_entry merged i sub = .ok e) :
    summariesAllNull e.2 = true := by
  have h5p : i < pick_steps.length := by simpa [pick_steps] using hi5
  have h5e : i < edit_steps.length := by simpa [edit_steps] using hi5
  rw [editMalformed] at hm
  have hedit : ∃ edd,
      dictGetD merged (edit_steps.getD i "") (PyVal.dict []) = .dict edd ∧
      (match (dlookup "summaries" edd).getD PyVal.null with
       | PyVal.list ss => ss
       | _ => []) = [] := by
    rcases hE : dlookup (edit_steps.getD i "") merged with _ | v
    · exact ⟨[], by rw [dictGetD, hE]; rfl, rfl⟩
    · rw [hE] at hm
      cases v with
      | dict d =>
        refine ⟨d, by rw [dictGetD, hE]; rfl, ?_⟩
        rcases hS : dlookup "summaries" d with _ | w
        · rfl
        · cases w with
          | list ss => simp [hS] at hm
          | null => rfl
          | bool b => rfl
          | int n => rfl
          | str s => rfl
          | dict d2 => rfl
      | null => simp at hm
      | bool b => simp at hm
      | int n => simp at hm
      | str s => simp at hm
      | list xs => simp at hm
  obtain ⟨edd, hedd, hs⟩ := hedit
  cases hP : dictGetD merged (pick_steps.getD i "") (PyVal.dict []) with
  | dict pd =>
    rcases hA2 : (match (dlookup "articles" pd).getD PyVal.null with
                  | PyVal.list xs => copyArticles xs
                  | _ => Except.ok []) with e2 | arts
    · rw [subtopic_entry, if_pos h5p, if_pos h5e, hP] at h
      simp only [pyGet] at h
      rw [hA2] at h
      exact Except.noConfusion h
    · have heval := subtopic_entry_eval merged i sub hi5 pd edd arts hP hedd hA2
      rw [heval] at h
      injection h with h2
      rw [← h2, hs]
      simp only [summariesAllNull, dlookup]
      rw [attachSummaries_nil]
      simp only [if_true, List.all_eq_true]
      intro x hx
      obtain ⟨a2, ha2, hxa⟩ := List.mem_map.mp hx
      obtain ⟨a3, _, hq⟩ := List.mem_map.mp (List.mem_of_mem_take ha2)
      rw [← hxa, ← hq]
      simp [dlookup_set_self]
  | null =>
    rw [subtopic_entry, if_pos h5p, if_pos h5e, hP] at h
    simp only [pyGet] at h
    exact Except.noConfusion h
  | bool b =>
    rw [subtopic_entry, if_pos h5p, if_pos h5e, hP] at h
    simp only [pyGet] at h
    exact Except.noConfusion h
  | int n =>
    rw [subtopic_entry, if_pos h5p, if_pos h5e, hP] at h
    simp only [pyGet] at h
    exact Except.noConfusion h
  | str s =>
    rw [subtopic_entry, if_pos h5p, if_pos h5e, hP] at h
    simp only [pyGet] at h
    exact Except.noConfusion h
  | list xs =>
    rw [subtopic_entry, if_pos h5p, if_pos h5e, hP] at h
    simp only [pyGet] at h
    exact Except.noConfusion h

end NewsPortal
namespace NewsPortal

theorem subtopic_entry_fields {merged : List (String × PyVal)} {i : Nat}
    {sub : String} {e : String × PyVal}
    (h : subtopic_entry merged i sub = .ok e) :
    e.1 = sub ∧ isEntryB e.2 = true ∧
    ∃ d, e.2 = PyVal.dict d ∧
      ((dlookup "best_article" d).getD .null = .null ∨
       ∃ dd, (dlookup "best_article" d).getD .null = .dict dd) := by
  obtain ⟨arts2, ed, he⟩ := subtopic_entry_shape h
  subst he
  refine ⟨rfl, ?_, ?_⟩
  · simp [isEntryB, dlookup]
  · refine ⟨_, rfl, ?_⟩
    cases arts2 with
    | nil => left; simp [dlookup]
    | cons a rest => right; exact ⟨a, by simp [dlookup]⟩

theorem stepsSafe_record {keys : List String} {merged : List (String × PyVal)}
    (h : stepsSafe keys merged = true)
    {k : String} (hk : k ∈ keys) :
    recordSafe (dictGetD merged k (.dict [])) = true := by
  rw [stepsSafe, List.all_eq_true] at h
  have h2 := h k hk
  rcases hd : dlookup k merged with _ | v
  · rw [dictGetD, hd]; rfl
  · rw [hd] at h2
    rw [dictGetD, hd]
    exact h2

theorem fallback_entries_from_fields (merged : List (String × PyVal)) :
    ∀ (subs : List String) (i : Nat) (ps : List (String × PyVal)),
      fallback_entries_from merged i subs = .ok ps →
      ps.map Prod.fst = subs ∧
      ∀ p ∈ ps, isEntryB p.2 = true ∧
        ∃ d, p.2 = PyVal.dict d ∧
          ((dlookup "best_article" d).getD .null = .null ∨
           ∃ dd, (dlookup "best_article" d).getD .null = .dict dd) := by
  intro subs
  induction subs with
  | nil =>
    intro i ps h
    injection h with h2
    rw [← h2]
    exact ⟨rfl, by intro p hp; simp at hp⟩
  | cons sub rest ih =>
    intro i ps h
    rw [fallback_entries_from] at h
    rcases hentry : subtopic_entry merged i sub with e2 | entry
    · rw [hentry] at h
      exact Except.noConfusion h
    · simp only [hentry] at h
      rcases hrest : fallback_entries_from merged (i + 1) rest with e3 | rest_ps
      · rw [hrest] at h
        exact Except.noConfusion h
      · simp only [hrest] at h
        injection h with h2
        obtain ⟨hkeys, hfields⟩ := ih (i + 1) rest_ps hrest
        obtain ⟨h1, h2b, h3⟩ := subtopic_entry_fields hentry
        rw [← h2]
        constructor
        · simp [List.map, h1, hkeys]
        · intro p hp
          rcases List.mem_cons.mp hp with hp | hp
          · subst hp; exact ⟨h2b, h3⟩
          · exact hfields p hp

theorem best_from_ok (per : List (String × PyVal))
    (hper : ∀ p ∈ per, ∃ d, p.2 = PyVal.dict d ∧
      ((dlookup "best_article" d).getD .null = .null ∨
       ∃ dd, (dlookup "best_article" d).getD .null = .dict dd)) :
    ∀ subs, ∃ bs, best_from per subs = .ok bs := by
  intro subs
  induction subs with
  | nil => exact ⟨[], rfl⟩
  | cons sub rest ih =>
    obtain ⟨bs, hbs⟩ := ih
    rw [best_from]
    rcases hd : dlookup sub per with _ | v
    · simp only [dictGetD, hd, Option.getD, pyGet, dlookup, truthy]
      exact ⟨bs, hbs⟩
    · obtain ⟨d, hdv, hba⟩ := hper (sub, v) (dlookup_mem hd)
      simp only at hdv
      rw [hdv] at hd
      simp only [dictGetD, hd, Option.getD_some, pyGet]
      rcases hba with hba | ⟨dd, hba⟩
      · rw [hba]
        simp only [truthy]
        exact ⟨bs, hbs⟩
      · rw [hba]
        cases dd with
        | nil =>
          simp only [truthy, List.isEmpty]
          exact ⟨bs, hbs⟩
        | cons kv rest2 =>
          simp only [truthy, List.isEmpty, Bool.not_false, if_true, pyDictCtor]
          rw [hbs]
          exact ⟨_, rfl⟩

end NewsPortal
namespace NewsPortal

theorem minimal_final_fallback_ok (merged : List (String × PyVal))
    (hsafe : stepsSafe (pick_steps ++ edit_steps) merged = true) :
    ∃ per, fallback_entries merged = .ok per ∧
      per.map Prod.fst = SUBTOPICS ∧
      (∀ p ∈ per, isEntryB p.2 = true) ∧
      ∃ bs : List PyVal, minimal_final_fallback merged = .ok (.dict [
        ("topic", .str TOPIC),
        ("subtopics", .list (SUBTOPICS.map .str)),
        ("per_subtopic", .dict per),
        ("home", .dict [
          ("best_articles", .list (bs.take 5)),
          ("main_editorial", .null)])]) := by
  have hm : ∀ i, i < 5 → pick_steps.getD i "" ∈ pick_steps ++ edit_steps := by decide
  have hme : ∀ i, i < 5 → edit_steps.getD i "" ∈ pick_steps ++ edit_steps := by decide
  have hrec : ∀ i, i < 5 →
      recordSafe (dictGetD merged (pick_steps.getD i "") (.dict [])) = true :=
    fun i hi => stepsSafe_record hsafe (hm i hi)
  have hed : ∀ i, i < 5 →
      isDictV (dictGetD merged (edit_steps.getD i "") (.dict [])) = true := by
    intro i hi
    have h5 := stepsSafe_record hsafe (hme i hi)
    rw [recordSafe, Bool.and_eq_true] at h5
    exact h5.1
  obtain ⟨e0, h0⟩ := subtopic_entry_ok merged 0 "Cancer Research & Prevention"
    (by decide) (hrec 0 (by decide)) (hed 0 (by decide))
  obtain ⟨e1, h1⟩ := subtopic_entry_ok merged 1 "Early Detection and Diagnosis"
    (by decide) (hrec 1 (by decide)) (hed 1 (by decide))
  obtain ⟨e2, h2⟩ := subtopic_entry_ok merged 2 "Cancer Drug Discovery and Development"
    (by decide) (hrec 2 (by decide)) (hed 2 (by decide))
  obtain ⟨e3, h3⟩ := subtopic_entry_ok merged 3 "Cancer Treatment Methods"
    (by decide) (hrec 3 (by decide)) (hed 3 (by decide))
  obtain ⟨e4, h4⟩ := subtopic_entry_ok merged 4 "Precision Oncology"
    (by decide) (hrec 4 (by decide)) (hed 4 (by decide))
  have hps : fallback_entries merged = .ok [e0, e1, e2, e3, e4] := by
    rw [fallback_entries]
    simp only [SUBTOPICS, fallback_entries_from, h0, h1, h2, h3, h4]
  obtain ⟨hkeys, hfields⟩ := fallback_entries_from_fields merged SUBTOPICS 0 _
    (by rw [← fallback_entries]; exact hps)
  obtain ⟨bs, hbs⟩ := best_from_ok [e0, e1, e2, e3, e4]
    (fun p hp => (hfields p hp).2) SUBTOPICS
  refine ⟨[e0, e1, e2, e3, e4], hps, hkeys, fun p hp => (hfields p hp).1, bs, ?_⟩
  simp only [minimal_final_fallback, hps, hbs]

theorem choose_final_ok (merged : List (String × PyVal))
    (h12 : isDictV (dictGetD merged "step_12" (.dict [])) = true)
    (h11 : isDictV (dictGetD merged "step_11" (.dict [])) = true)
    (hfb : ∃ v, minimal_final_fallback merged = .ok v) :
    ∃ f, choose_final merged = .ok f := by
  obtain ⟨d12, hd12⟩ := isDictV_exists h12
  obtain ⟨d11, hd11⟩ := isDictV_exists h11
  obtain ⟨v, hv⟩ := hfb
  rw [choose_final, hd12]
  simp only [pyGet]
  cases htr : truthy ((dlookup "final" d12).getD .null) with
  | true => simp only [htr, if_true]; exact ⟨_, rfl⟩
  | false =>
    simp only [htr, Bool.false_eq_true, if_false]
    rw [hd11]
    simp only [pyGet]
    cases htr2 : truthy ((dlookup "final" d11).getD .null) with
    | true => simp only [htr2, if_true]; exact ⟨_, rfl⟩
    | false =>
      simp only [htr2, Bool.false_eq_true, if_false]
      exact ⟨v, hv⟩

theorem build_merged_stepsSafe (arts : List String)
    (hsafe : ∀ a ∈ arts, recordSafe (normalize_artifact a) = true)
    (keys : List String) (hk : ∀ k ∈ keys, k ≠ "topic") :
    stepsSafe keys (build_merged arts) = true := by
  rw [stepsSafe, List.all_eq_true]
  intro k hkk
  rcases hd : dlookup k (build_merged arts) with _ | v
  · rfl
  · show recordSafe v = true
    rcases merge_steps_lookup_val k arts 0 _ v hd with h2 | h2
    · rw [dlookup, if_neg (fun he => hk k hkk he.symm)] at h2
      exact Option.noConfusion h2
    · obtain ⟨a, ha, hv⟩ := h2
      rw [hv]
      exact hsafe a ha

end NewsPortal
namespace NewsPortal

theorem build_merged_topic (arts : List String) :
    dlookup "topic" (build_merged arts) = some (.str TOPIC) := by
  rw [build_merged, merge_steps_lookup _ step_key_ne_topic]
  rfl

theorem build_merged_final (arts : List String) :
    dlookup "final" (build_merged arts) = none := by
  rw [build_merged, merge_steps_lookup _ step_key_ne_final]
  rfl

theorem build_merged_fwe (arts : List String) :
    dlookup "file_write_error" (build_merged arts) = none := by
  rw [build_merged, merge_steps_lookup _ step_key_ne_fwe]
  rfl

end NewsPortal
namespace NewsPortal

/-! ### Claim theorems -/

/-- Claim C1: for every input string that contains a first opening brace
strictly before a last closing brace, `ensure_json` first attempts to parse
the inclusive brace-delimited slice; if that parse fails it attempts to
parse the entire string; if both attempts fail it returns the record with
`error` mapped to `non_json_output` and `raw` mapped to the original
string unchanged. -/
theorem ensure_json_span_attempts (s : String) (st en : Nat)
    (h1 : strFind s lbrace = some st) (h2 : strRfind s rbrace = some en)
    (h3 : st < en) :
    ensure_json s =
      ((jsonParse (sliceSpan s st en) <|> jsonParse s).getD (errorRecord s)) := by
  have hsp : spanOf s = some (st, en) := by
    rw [spanOf, h1, h2]
    exact if_pos h3
  cases hj : jsonParse (sliceSpan s st en) with
  | some v => simp only [ensure_json, hsp, hj, Option.some_orElse, Option.getD_some]
  | none =>
    cases hj2 : jsonParse s with
    | some v2 =>
      simp only [ensure_json, hsp, hj, hj2, Option.none_orElse, Option.getD_some]
    | none =>
      simp only [ensure_json, hsp, hj, hj2, Option.none_orElse, Option.getD_none]

/-- Witness for C1 at a concrete input with a valid brace span. -/
theorem ensure_json_span_attempts_witness :
    strFind "x\x7b\"a\": 1\x7dy" lbrace = some 1 ∧
    strRfind "x\x7b\"a\": 1\x7dy" rbrace = some 8 ∧
    1 < 8 ∧
    ensure_json "x\x7b\"a\": 1\x7dy" =
      ((jsonParse (sliceSpan "x\x7b\"a\": 1\x7dy" 1 8) <|>
        jsonParse "x\x7b\"a\": 1\x7dy").getD (errorRecord "x\x7b\"a\": 1\x7dy")) :=
  ⟨rfl, rfl, by decide, ensure_json_span_attempts "x\x7b\"a\": 1\x7dy" 1 8 rfl rfl (by decide)⟩

/-- Claim C4: the per-artifact normalization step maps an empty input string
to the record with `empty` mapped to true (crew.py line 216). -/
theorem normalize_artifact_empty :
    normalize_artifact "" = .dict [("empty", .bool true)] := rfl

/-- Counterexample for claim C5 as stated: the input string `3` has no brace
span and yet the normalizer returns the parsed integer, not an error record
of any kind. -/
theorem ensure_json_no_span_parsable_cex :
    spanOf "3" = none ∧ ensure_json "3" = PyVal.int 3 ∧
    ∀ r : String, PyVal.int 3 ≠
      PyVal.dict [("error", .str "non_json_output"), ("raw", .str r)] :=
  ⟨rfl, rfl, fun _ h => PyVal.noConfusion h⟩

/-- Claim C5 (amended): for every input string without a valid brace span
that moreover fails to parse as JSON, `ensure_json` returns the error record
carrying the original string verbatim under `raw`. -/
theorem ensure_json_no_span_unparsable (s : String)
    (h1 : spanOf s = none) (h2 : jsonParse s = none) :
    ensure_json s =
      PyVal.dict [("error", .str "non_json_output"), ("raw", .str s)] := by
  simp only [ensure_json, h1, h2]
  rfl

/-- Witness for amended C5 at a concrete unparsable brace-free input. -/
theorem ensure_json_no_span_unparsable_witness :
    spanOf "abc" = none ∧ jsonParse "abc" = none ∧
    ensure_json "abc" =
      PyVal.dict [("error", .str "non_json_output"), ("raw", .str "abc")] :=
  ⟨rfl, rfl, ensure_json_no_span_unparsable "abc" rfl rfl⟩

/-- Counterexample for claim C6 as stated: on the input `[1]` the normalizer
returns a top-level list, which is not a mapping. -/
theorem ensure_json_nonmapping_cex :
    ensure_json "[1]" = PyVal.list [PyVal.int 1] ∧
    isDictV (ensure_json "[1]") = false :=
  ⟨rfl, rfl⟩

/-- Claim C6 (amended): `ensure_json` is a total function on strings (no
exception escapes in the model); whenever every parse attempt fails (the
whole string does not parse, nor does the brace-delimited slice when a
valid span exists) the result is exactly the error-record mapping with
`error` mapped to `non_json_output` and `raw` mapped to the original
string; otherwise the result is the value parsed from the input itself or
from its brace-delimited slice, which may be a non-mapping such as a
top-level list. -/
theorem ensure_json_total_shape (s : String) :
    (jsonParse s = none ∧
     (∀ st en, spanOf s = some (st, en) → jsonParse (sliceSpan s st en) = none) ∧
     ensure_json s =
       PyVal.dict [("error", .str "non_json_output"), ("raw", .str s)]) ∨
    jsonParse s = some (ensure_json s) ∨
    ∃ st en, spanOf s = some (st, en) ∧
      jsonParse (sliceSpan s st en) = some (ensure_json s) := by
  rcases hsp : spanOf s with _ | ⟨st, en⟩
  · rcases hj : jsonParse s with _ | v
    · left
      refine ⟨rfl, ?_, ?_⟩
      · intro st en h
        exact Option.noConfusion h
      · simp only [ensure_json, hsp, hj]
        rfl
    · have he : ensure_json s = v := by simp only [ensure_json, hsp, hj]
      right; left
      rw [he]
  · rcases hj : jsonParse (sliceSpan s st en) with _ | v
    · rcases hj2 : jsonParse s with _ | v2
      · left
        refine ⟨rfl, ?_, ?_⟩
        · intro st2 en2 h
          injection h with h2
          injection h2 with h3 h4
          rw [← h3, ← h4]
          exact hj
        · simp only [ensure_json, hsp, hj, hj2]
          rfl
      · have he : ensure_json s = v2 := by simp only [ensure_json, hsp, hj, hj2]
        right; left
        rw [he]
    · have he : ensure_json s = v := by simp only [ensure_json, hsp, hj]
      right; right
      exact ⟨st, en, rfl, by rw [he]; exact hj⟩

/-- Witness for amended C6 at a concrete brace-free unparsable input, where
the first disjunct (total parse failure yielding the exact error record)
is the realized one. -/
theorem ensure_json_total_shape_witness :
    (jsonParse "oops" = none ∧
     (∀ st en, spanOf "oops" = some (st, en) →
       jsonParse (sliceSpan "oops" st en) = none) ∧
     ensure_json "oops" =
       PyVal.dict [("error", .str "non_json_output"), ("raw", .str "oops")]) ∨
    jsonParse "oops" = some (ensure_json "oops") ∨
    ∃ st en, spanOf "oops" = some (st, en) ∧
      jsonParse (sliceSpan "oops" st en) = some (ensure_json "oops") :=
  ensure_json_total_shape "oops"

end NewsPortal
namespace NewsPortal

/-- Counterexample for claim C2 as stated: with twelve task outputs whose
last artifact parses to the top-level list `[1]`, the final-selection chain
calls `.get` on a non-dict step record and the run raises `AttributeError`
instead of returning a mapping. -/
theorem run_pipeline_nondict_cex :
    run_pipeline none ["", "", "", "", "", "", "", "", "", "", "", "[1]"] none =
      .error "AttributeError" := rfl

/-- Claim C2 (amended): for every sequence of task outputs whose parsed step
records are mappings whose `articles` fields, when lists, hold only
mappings, `run_pipeline` returns a merged mapping that contains a `final`
key, for any value of the ignored topic argument and whether or not the file
write fails. -/
theorem run_pipeline_final_key (topic : Option String) (artifacts : List String)
    (write_error : Option String)
    (hsafe : ∀ a ∈ artifacts, recordSafe (normalize_artifact a) = true) :
    ∃ m, run_pipeline topic artifacts write_error = .ok m ∧
      (dlookup "final" m).isSome = true := by
  have hss : stepsSafe (pick_steps ++ edit_steps) (build_merged artifacts) = true :=
    build_merged_stepsSafe artifacts hsafe _ (by decide)
  have hs12 : stepsSafe ["step_11", "step_12"] (build_merged artifacts) = true :=
    build_merged_stepsSafe artifacts hsafe _ (by decide)
  have h11 : isDictV (dictGetD (build_merged artifacts) "step_11" (.dict [])) = true := by
    have h5 := stepsSafe_record hs12 (show "step_11" ∈ ["step_11", "step_12"] by decide)
    rw [recordSafe, Bool.and_eq_true] at h5
    exact h5.1
  have h12 : isDictV (dictGetD (build_merged artifacts) "step_12" (.dict [])) = true := by
    have h5 := stepsSafe_record hs12 (show "step_12" ∈ ["step_11", "step_12"] by decide)
    rw [recordSafe, Bool.and_eq_true] at h5
    exact h5.1
  obtain ⟨per, hper, hkeys2, hent, bs, hfb⟩ :=
    minimal_final_fallback_ok (build_merged artifacts) hss
  obtain ⟨f, hf⟩ := choose_final_ok (build_merged artifacts) h12 h11 ⟨_, hfb⟩
  cases write_error with
  | none =>
    refine ⟨dictSet (build_merged artifacts) "final" f, ?_, ?_⟩
    · simp only [run_pipeline, hf]
    · rw [dlookup_dictSet, if_pos rfl]
      rfl
  | some e =>
    refine ⟨dictSet (dictSet (build_merged artifacts) "final" f)
      "file_write_error" (.str e), ?_, ?_⟩
    · simp only [run_pipeline, hf]
    · rw [dlookup_dictSet, if_neg (by decide), dlookup_dictSet, if_pos rfl]
      rfl

/-- Witness for amended C2 on a concrete artifact list with safe records. -/
theorem run_pipeline_final_key_witness :
    (∀ a ∈ ["", "x"], recordSafe (normalize_artifact a) = true) ∧
    ∃ m, run_pipeline none ["", "x"] none = .ok m ∧
      (dlookup "final" m).isSome = true :=
  ⟨by decide, run_pipeline_final_key none ["", "x"] none (by decide)⟩

/-- Counterexample for claim C3 as stated: a merged mapping whose first pick
step record is a list (not a mapping) makes the fallback assembler raise
`AttributeError` rather than treating the subtopic as empty. -/
theorem fallback_nondict_cex :
    minimal_final_fallback [("step_1", PyVal.list [])] =
      .error "AttributeError" := rfl

/-- Claim C3 (amended): over a merged mapping whose designated step records,
when present, are mappings (with list-valued `articles` fields holding only
mappings), the fallback assembler succeeds and returns a complete FinalView;
a designated pick record that is missing or lacks a list-valued `articles`
field yields that subtopic with no articles and a null best article, and a
designated editor record that is missing or lacks a list-valued `summaries`
field yields null summaries on every article of that subtopic. -/
theorem fallback_malformed_treated_empty (merged : List (String × PyVal))
    (hsafe : stepsSafe (pick_steps ++ edit_steps) merged = true) :
    (∃ v, minimal_final_fallback merged = .ok v ∧ isFinalViewB v = true) ∧
    (∀ i sub, i < 5 → pickMalformed merged i = true →
      ∃ ed, subtopic_entry merged i sub = .ok (sub, .dict [
        ("articles", .list []),
        ("editorial", ed),
        ("best_article", .null)])) ∧
    (∀ i sub e, i < 5 → editMalformed merged i = true →
      subtopic_entry merged i sub = .ok e → summariesAllNull e.2 = true) := by
  have hme : ∀ i, i < 5 → edit_steps.getD i "" ∈ pick_steps ++ edit_steps := by decide
  have hed : ∀ i, i < 5 →
      isDictV (dictGetD merged (edit_steps.getD i "") (.dict [])) = true := by
    intro i hi
    have h5 := stepsSafe_record hsafe (hme i hi)
    rw [recordSafe, Bool.and_eq_true] at h5
    exact h5.1
  refine ⟨?_, ?_, ?_⟩
  · obtain ⟨per, hper, hkeys2, hent, bs, hfb⟩ := minimal_final_fallback_ok merged hsafe
    refine ⟨_, hfb, ?_⟩
    simp only [isFinalViewB, Bool.and_eq_true]
    refine ⟨⟨⟨rfl, rfl⟩, ?_⟩, rfl⟩
    show (SUBTOPICS.all fun sub =>
      match dlookup sub per with
      | some e => isEntryB e
      | none => false) = true
    rw [List.all_eq_true]
    intro sub hsub
    have hmem : sub ∈ per.map Prod.fst := by rw [hkeys2]; exact hsub
    rcases hlk : dlookup sub per with _ | v
    · have h2 := dlookup_isSome_of_key_mem hmem
      rw [hlk] at h2
      exact absurd h2 (by decide)
    · exact hent (sub, v) (dlookup_mem hlk)
  · intro i sub hi hm
    obtain ⟨edd, _, heq⟩ := subtopic_entry_pick_malformed merged i sub hi hm (hed i hi)
    exact ⟨_, heq⟩
  · intro i sub e hi hm h
    exact subtopic_entry_edit_malformed merged i sub e hi hm h

/-- Witness for amended C3 on the empty merged mapping, where every
designated record is missing. -/
theorem fallback_malformed_treated_empty_witness :
    stepsSafe (pick_steps ++ edit_steps) [] = true ∧
    pickMalformed [] 0 = true ∧
    (∃ v, minimal_final_fallback [] = .ok v ∧ isFinalViewB v = true) ∧
    ∃ ed, subtopic_entry [] 0 "Cancer Research & Prevention" = .ok
      ("Cancer Research & Prevention", .dict [
        ("articles", .list []),
        ("editorial", ed),
        ("best_article", .null)]) :=
  ⟨by decide, by decide,
   (fallback_malformed_treated_empty [] (by decide)).1,
   (fallback_malformed_treated_empty [] (by decide)).2.1 0
     "Cancer Research & Prevention" (by decide) (by decide)⟩

end NewsPortal
namespace NewsPortal

/-- Claim C7: with the designated pick record holding one article titled `A`
and the matching editor record holding the single summary `sum1`, the
fallback entry for that subtopic carries that article with `summary` set to
`sum1` and the same article as best article; with no editor record at all,
the article is still returned with a null `summary`. -/
theorem subtopic_entry_pick_edit_concrete (merged : List (String × PyVal))
    (i : Nat) (sub : String) (hi5 : i < 5) :
    (dlookup (pick_steps.getD i "") merged =
        some (.dict [("articles", .list [.dict [("title", .str "A")]])]) →
     dlookup (edit_steps.getD i "") merged =
        some (.dict [("summaries", .list [.str "sum1"])]) →
     subtopic_entry merged i sub = .ok (sub, .dict [
        ("articles", .list [.dict [("title", .str "A"), ("summary", .str "sum1")]]),
        ("editorial", .null),
        ("best_article", .dict [("title", .str "A"), ("summary", .str "sum1")])])) ∧
    (dlookup (pick_steps.getD i "") merged =
        some (.dict [("articles", .list [.dict [("title", .str "A")]])]) →
     dlookup (edit_steps.getD i "") merged = none →
     subtopic_entry merged i sub = .ok (sub, .dict [
        ("articles", .list [.dict [("title", .str "A"), ("summary", .null)]]),
        ("editorial", .null),
        ("best_article", .dict [("title", .str "A"), ("summary", .null)])])) := by
  constructor
  · intro hp he
    have hp2 : dictGetD merged (pick_steps.getD i "") (.dict []) =
        .dict [("articles", .list [.dict [("title", .str "A")]])] := by
      rw [dictGetD, hp]; rfl
    have he2 : dictGetD merged (edit_steps.getD i "") (.dict []) =
        .dict [("summaries", .list [.str "sum1"])] := by
      rw [dictGetD, he]; rfl
    exact subtopic_entry_eval merged i sub hi5 _ _ [[("title", .str "A")]] hp2 he2 rfl
  · intro hp he
    have hp2 : dictGetD merged (pick_steps.getD i "") (.dict []) =
        .dict [("articles", .list [.dict [("title", .str "A")]])] := by
      rw [dictGetD, hp]; rfl
    have he2 : dictGetD merged (edit_steps.getD i "") (.dict []) = .dict [] := by
      rw [dictGetD, he]; rfl
    exact subtopic_entry_eval merged i sub hi5 _ _ [[("title", .str "A")]] hp2 he2 rfl

/-- Witness for C7 at concrete merged mappings, with and without the editor
record. -/
theorem subtopic_entry_pick_edit_concrete_witness :
    subtopic_entry
      [("step_1", PyVal.dict [("articles", .list [.dict [("title", .str "A")]])]),
       ("step_6", PyVal.dict [("summaries", .list [.str "sum1"])])]
      0 "Cancer Research & Prevention" =
      .ok ("Cancer Research & Prevention", .dict [
        ("articles", .list [.dict [("title", .str "A"), ("summary", .str "sum1")]]),
        ("editorial", .null),
        ("best_article", .dict [("title", .str "A"), ("summary", .str "sum1")])]) ∧
    subtopic_entry
      [("step_1", PyVal.dict [("articles", .list [.dict [("title", .str "A")]])])]
      0 "Cancer Research & Prevention" =
      .ok ("Cancer Research & Prevention", .dict [
        ("articles", .list [.dict [("title", .str "A"), ("summary", .null)]]),
        ("editorial", .null),
        ("best_article", .dict [("title", .str "A"), ("summary", .null)])]) :=
  ⟨(subtopic_entry_pick_edit_concrete
      [("step_1", PyVal.dict [("articles", .list [.dict [("title", .str "A")]])]),
       ("step_6", PyVal.dict [("summaries", .list [.str "sum1"])])]
      0 "Cancer Research & Prevention" (by decide)).1 rfl rfl,
   (subtopic_entry_pick_edit_concrete
      [("step_1", PyVal.dict [("articles", .list [.dict [("title", .str "A")]])])]
      0 "Cancer Research & Prevention" (by decide)).2 rfl rfl⟩

/-- Counterexample for claim C8 as stated: the `final` field nested in the
`step_12` record is present (an empty mapping) and yet the selection takes
the `step_11` value, because the chain tests Python truthiness, not
presence. -/
theorem choose_final_truthiness_cex :
    (∃ d, dlookup "step_12"
        [("step_12", PyVal.dict [("final", PyVal.dict [])]),
         ("step_11", PyVal.dict [("final", PyVal.dict [("x", PyVal.int 1)])])] =
        some (PyVal.dict d) ∧ dlookup "final" d = some (PyVal.dict [])) ∧
    choose_final
        [("step_12", PyVal.dict [("final", PyVal.dict [])]),
         ("step_11", PyVal.dict [("final", PyVal.dict [("x", PyVal.int 1)])])] =
      .ok (PyVal.dict [("x", PyVal.int 1)]) ∧
    PyVal.dict [("x", PyVal.int 1)] ≠ PyVal.dict [] :=
  ⟨⟨[("final", PyVal.dict [])], rfl, rfl⟩, rfl,
   fun h => by injection h with h2; exact List.noConfusion h2⟩

/-- Claim C8 (amended): provided the `step_11` and `step_12` records, when
present, are mappings, the `final` value is selected by Python truthiness in
this order: the `final` field nested in `step_12` when truthy, else the one
nested in `step_11` when truthy, else the fallback FinalView. -/
theorem choose_final_matches_spec (merged : List (String × PyVal))
    (h12 : ∀ v, dlookup "step_12" merged = some v → isDictV v = true)
    (h11 : ∀ v, dlookup "step_11" merged = some v → isDictV v = true) :
    choose_final merged = choose_final_spec merged := by
  have e12 : ∃ d, dictGetD merged "step_12" (.dict []) = .dict d ∧
      nestedFinal merged "step_12" = (dlookup "final" d).getD .null := by
    rcases hd : dlookup "step_12" merged with _ | v
    · exact ⟨[], by rw [dictGetD, hd]; rfl, by simp only [nestedFinal, hd]; rfl⟩
    · obtain ⟨d, hdv⟩ := isDictV_exists (h12 v hd)
      subst hdv
      exact ⟨d, by rw [dictGetD, hd]; rfl, by simp only [nestedFinal, hd]⟩
  have e11 : ∃ d, dictGetD merged "step_11" (.dict []) = .dict d ∧
      nestedFinal merged "step_11" = (dlookup "final" d).getD .null := by
    rcases hd : dlookup "step_11" merged with _ | v
    · exact ⟨[], by rw [dictGetD, hd]; rfl, by simp only [nestedFinal, hd]; rfl⟩
    · obtain ⟨d, hdv⟩ := isDictV_exists (h11 v hd)
      subst hdv
      exact ⟨d, by rw [dictGetD, hd]; rfl, by simp only [nestedFinal, hd]⟩
  obtain ⟨d12, hg12, hn12⟩ := e12
  obtain ⟨d11, hg11, hn11⟩ := e11
  rw [choose_final, choose_final_spec, hg12, hn12, hn11]
  simp only [pyGet]
  cases truthy ((dlookup "final" d12).getD .null) with
  | true => rfl
  | false => rw [hg11]

/-- Witness for amended C8 at a concrete merged mapping with a truthy
`step_11` nested final. -/
theorem choose_final_matches_spec_witness :
    choose_final [("step_11", PyVal.dict [("final", PyVal.str "F")])] =
      choose_final_spec [("step_11", PyVal.dict [("final", PyVal.str "F")])] ∧
    choose_final [("step_11", PyVal.dict [("final", PyVal.str "F")])] =
      .ok (PyVal.str "F") :=
  ⟨choose_final_matches_spec [("step_11", PyVal.dict [("final", PyVal.str "F")])]
      (fun _ h => Option.noConfusion h)
      (fun v h => by injection h with h2; rw [← h2]; rfl),
   rfl⟩

/-- Claim C9: when the file write fails the pipeline does not raise: it
returns the in-memory merged mapping extended with a `file_write_error`
field holding the error message, while a successful write leaves the
returned mapping without that field. -/
theorem run_pipeline_write_error (topic : Option String)
    (artifacts : List String) (e : String) (m : List (String × PyVal))
    (h : run_pipeline topic artifacts none = .ok m) :
    dlookup "file_write_error" m = none ∧
    run_pipeline topic artifacts (some e) =
      .ok (dictSet m "file_write_error" (.str e)) ∧
    dlookup "file_write_error" (dictSet m "file_write_error" (.str e)) =
      some (.str e) := by
  rcases hc : choose_final (build_merged artifacts) with e2 | fin
  · simp only [run_pipeline, hc] at h
    exact Except.noConfusion h
  · simp only [run_pipeline, hc] at h
    injection h with h2
    refine ⟨?_, ?_, ?_⟩
    · rw [← h2, dlookup_dictSet, if_neg (by decide), build_merged_fwe]
    · simp only [run_pipeline, hc]
      rw [h2]
    · rw [dlookup_dictSet, if_pos rfl]

/-- Witness for C9 on the empty artifact list. -/
theorem run_pipeline_write_error_witness :
    ∃ m, run_pipeline none [] none = .ok m ∧
      (dlookup "file_write_error" m = none ∧
       run_pipeline none [] (some "disk full") =
         .ok (dictSet m "file_write_error" (.str "disk full")) ∧
       dlookup "file_write_error" (dictSet m "file_write_error"
         (.str "disk full")) = some (.str "disk full")) :=
  ⟨_, rfl, run_pipeline_write_error none [] "disk full" _ rfl⟩

/-- Claim C10: `run_pipeline` ignores its topic argument: any two argument
values give identical results on the same engine outputs, and the returned
mapping always carries the fixed topic string. -/
theorem run_pipeline_topic_ignored (t1 t2 : Option String)
    (artifacts : List String) (write_error : Option String) :
    run_pipeline t1 artifacts write_error = run_pipeline t2 artifacts write_error ∧
    TOPIC = "Cancer Health Care" ∧
    ∀ m, run_pipeline t1 artifacts write_error = .ok m →
      dlookup "topic" m = some (.str "Cancer Health Care") := by
  refine ⟨rfl, rfl, ?_⟩
  intro m h
  rcases hc : choose_final (build_merged artifacts) with e2 | fin
  · simp only [run_pipeline, hc] at h
    exact Except.noConfusion h
  · simp only [run_pipeline, hc] at h
    cases write_error with
    | none =>
      injection h with h2
      rw [← h2, dlookup_dictSet, if_neg (by decide), build_merged_topic]
      rfl
    | some e =>
      injection h with h2
      rw [← h2, dlookup_dictSet, if_neg (by decide), dlookup_dictSet,
        if_neg (by decide), build_merged_topic]
      rfl

/-- Witness for C10 at two different topic arguments. -/
theorem run_pipeline_topic_ignored_witness :
    run_pipeline none ["x"] none = run_pipeline (some "Sports") ["x"] none ∧
    ∃ m, run_pipeline none ["x"] none = .ok m ∧
      dlookup "topic" m = some (.str "Cancer Health Care") :=
  ⟨(run_pipeline_topic_ignored none (some "Sports") ["x"] none).1,
   _, rfl,
   (run_pipeline_topic_ignored none (some "Sports") ["x"] none).2.2 _ rfl⟩

end NewsPortal
